import Mathlib

/-!
Verification of the ticket extraction-confidence-lifecycle engine of
`app.py`: the field scorer, the confidence calculator, the resolution
policy, the automatic processing pass, the manual-closure handler and
the two-facet search filter, shallowly embedded over `String`, `List`
and `ℚ` (Python floats in this program stay far from every rounding and
comparison boundary, so exact rational arithmetic is faithful).
-/

/-- Python `str.lower()` on the character list of a string. -/
def strLower (s : String) : String := ⟨s.data.map Char.toLower⟩

/-- Python `str.upper()` on the character list of a string. -/
def strUpper (s : String) : String := ⟨s.data.map Char.toUpper⟩

/-- Python `str.strip()`: remove leading and trailing whitespace. -/
def strTrim (s : String) : String :=
  ⟨((s.data.dropWhile Char.isWhitespace).reverse.dropWhile Char.isWhitespace).reverse⟩

/-- Python's `round` on a rational: round half to even (banker's rounding),
returning an integer, as `round(conf)` does in `app.py`. -/
def pyRound (q : ℚ) : ℤ :=
  let f := ⌊q⌋
  let frac := q - f
  if frac < 1/2 then f
  else if 1/2 < frac then f + 1
  else if f % 2 = 0 then f else f + 1

/-- Word character in the sense of the regex `\b` boundary: alphanumeric or
underscore (the `\w` class for the ASCII inputs this program handles). -/
def isWordChar (c : Char) : Bool := c.isAlphanum || c == '_'

/-- Whether position `i` of `s` holds a word character (out of range: no). -/
def wordAt (s : List Char) (i : Nat) : Bool :=
  match s.get? i with
  | some c => isWordChar c
  | none => false

/-- The regex `\b` word-boundary test at position `i` of `s` (positions run
from `0` to `s.length`): exactly one side of the position is a word char. -/
def boundaryAt (s : List Char) (i : Nat) : Bool :=
  (if i = 0 then false else wordAt s (i - 1)) != wordAt s i

/-- The literal pattern `pat` occurs in `s` starting at position `i`. -/
def matchAt (pat s : List Char) (i : Nat) : Bool :=
  (s.drop i).take pat.length == pat

/-- Embedding of `re.search(r"\b" + re.escape(fv) + r"\b", desc)`: some
position carries a word boundary, the escaped (hence literal) pattern, and a
word boundary after it. -/
def wbSearch (pat s : List Char) : Bool :=
  (List.range (s.length + 1)).any fun i =>
    boundaryAt s i && matchAt pat s i && boundaryAt s (i + pat.length)

/-- Specification-side reading of the same search: the pattern occurs verbatim
at some position of the text, flanked by word boundaries. -/
def OccursWB (pat s : List Char) : Prop :=
  ∃ i, i + pat.length ≤ s.length ∧ (s.drop i).take pat.length = pat ∧
    boundaryAt s i = true ∧ boundaryAt s (i + pat.length) = true

/-- Embedding of `field_score` from `app.py`: 0.3 for an empty or `unknown` value, 1.0 for
a case-insensitive whole-word occurrence in the description, 0.7 otherwise. -/
def field_score (field_value description : String) : ℚ :=
  if field_value = "" ∨ strLower field_value = "unknown" then 3/10
  else
    let desc := strLower description
    let fv := strLower field_value
    if wbSearch fv.data desc.data then 1
    else 7/10

/-- Embedding of `compute_confidence` from `app.py`: weights `0.33` each, redundancy cap at
70 when `issue_type` and `affected_system` are non-empty and equal up to case,
clamp to `[40, 95]`, then Python `round`. -/
def compute_confidence (issue_type severity affected_system description : String) : ℤ :=
  let w_issue : ℚ := 33/100
  let w_sev : ℚ := 33/100
  let w_sys : ℚ := 33/100
  let s_issue := field_score issue_type description
  let s_sev := field_score severity description
  let s_sys := field_score affected_system description
  let conf := (s_issue * w_issue + s_sev * w_sev + s_sys * w_sys) * 100
  let conf :=
    if issue_type ≠ "" ∧ affected_system ≠ "" ∧ strLower issue_type = strLower affected_system
    then min conf 70 else conf
  let conf := if conf < 40 then 40 else conf
  let conf := if conf > 95 then 95 else conf
  pyRound conf

/-- The confidence computation exactly as the specification words it: equal
weights of one third each, `raw = (s_issue + s_sev + s_sys) / 3 * 100`,
followed by the same redundancy cap, clamp and rounding. Stated only to be
compared with `compute_confidence`. -/
def compute_confidence_specref (issue_type severity affected_system description : String) : ℤ :=
  let s_issue := field_score issue_type description
  let s_sev := field_score severity description
  let s_sys := field_score affected_system description
  let raw := (s_issue + s_sev + s_sys) / 3 * 100
  let capped :=
    if issue_type ≠ "" ∧ affected_system ≠ "" ∧ strLower issue_type = strLower affected_system
    then min raw 70 else raw
  let fl := if capped < 40 then 40 else capped
  let cl := if fl > 95 then 95 else fl
  pyRound cl

/-! Evaluation lemmas for the scorer and the rounding function. -/

lemma field_score_low (fv d : String)
    (h : fv = "" ∨ strLower fv = "unknown") : field_score fv d = 3/10 := by
  rw [field_score, if_pos h]

lemma field_score_hit {fv d : String}
    (h1 : ¬(fv = "" ∨ strLower fv = "unknown"))
    (h2 : wbSearch (strLower fv).data (strLower d).data = true) :
    field_score fv d = 1 := by
  rw [field_score, if_neg h1]
  simp only [h2, if_true]

lemma field_score_miss {fv d : String}
    (h1 : ¬(fv = "" ∨ strLower fv = "unknown"))
    (h2 : wbSearch (strLower fv).data (strLower d).data = false) :
    field_score fv d = 7/10 := by
  rw [field_score, if_neg h1]
  simp only [h2, Bool.false_eq_true, if_false]

lemma pyRound_le_of_le {q : ℚ} {n : ℤ} (h : q ≤ n) : pyRound q ≤ n := by
  rcases eq_or_lt_of_le h with he | hl
  · subst he
    simp only [pyRound, Int.floor_intCast, sub_self]
    norm_num
  · have hf : ⌊q⌋ < n := Int.floor_lt.mpr hl
    simp only [pyRound]
    split_ifs <;> omega

lemma le_pyRound_of_le {q : ℚ} {n : ℤ} (h : (n : ℚ) ≤ q) : n ≤ pyRound q := by
  have hf : n ≤ ⌊q⌋ := Int.le_floor.mpr h
  simp only [pyRound]
  split_ifs <;> omega

lemma pyRound_eq_down {q : ℚ} {n : ℤ} (h1 : (n : ℚ) ≤ q) (h2 : q < n + 1/2) :
    pyRound q = n := by
  have hf : ⌊q⌋ = n := by
    rw [Int.floor_eq_iff]
    exact ⟨h1, by linarith⟩
  simp only [pyRound, hf]
  rw [if_pos (by linarith)]

lemma pyRound_eq_up {q : ℚ} {n : ℤ} (h1 : (n : ℚ) - 1/2 < q) (h2 : q < n) :
    pyRound q = n := by
  have hf : ⌊q⌋ = n - 1 := by
    rw [Int.floor_eq_iff]
    constructor <;> push_cast <;> linarith
  simp only [pyRound, hf]
  rw [if_neg (by push_cast; linarith), if_pos (by push_cast; linarith)]
  omega

lemma compute_confidence_all_unknown (d : String) :
    compute_confidence "unknown" "unknown" "unknown" d = 40 := by
  have hs : field_score "unknown" d = 3/10 :=
    field_score_low "unknown" d (Or.inr (by decide))
  have hc : ("unknown" : String) ≠ "" ∧ ("unknown" : String) ≠ "" ∧
      strLower "unknown" = strLower "unknown" := ⟨by decide, by decide, rfl⟩
  simp only [compute_confidence, hs, if_pos hc]
  have h1 : ((3:ℚ)/10 * (33/100) + 3/10 * (33/100) + 3/10 * (33/100)) * 100 = 297/10 := by
    norm_num
  rw [h1]
  have h2 : (min ((297:ℚ)/10) 70) = 297/10 := min_eq_left (by norm_num)
  rw [h2]
  simp only [ite_self]
  have h3 : (if (297:ℚ)/10 < 40 then (40:ℚ) else 297/10) = 40 := by norm_num
  rw [h3]
  have h4 : ¬((40:ℚ) > 95) := by norm_num
  rw [if_neg h4]
  exact pyRound_eq_down (by norm_num) (by norm_num)

lemma wbSearch_iff (pat s : List Char) : wbSearch pat s = true ↔ OccursWB pat s := by
  unfold wbSearch OccursWB
  rw [List.any_eq_true]
  constructor
  · rintro ⟨i, hmem, hcond⟩
    rw [List.mem_range] at hmem
    simp only [Bool.and_eq_true] at hcond
    obtain ⟨⟨hb1, hm⟩, hb2⟩ := hcond
    rw [matchAt] at hm
    have hm' : (s.drop i).take pat.length = pat := beq_iff_eq.mp hm
    have hlen : i + pat.length ≤ s.length := by
      have hl := congrArg List.length hm'
      rw [List.length_take, List.length_drop] at hl
      omega
    exact ⟨i, hlen, hm', hb1, hb2⟩
  · rintro ⟨i, hlen, hm, hb1, hb2⟩
    refine ⟨i, ?_, ?_⟩
    · rw [List.mem_range]; omega
    · simp only [Bool.and_eq_true]
      exact ⟨⟨hb1, by rw [matchAt]; exact beq_iff_eq.mpr hm⟩, hb2⟩

lemma pyRound_clamp_mem (c : ℚ) :
    40 ≤ pyRound (if (if c < 40 then (40:ℚ) else c) > 95 then (95:ℚ)
                  else if c < 40 then (40:ℚ) else c) ∧
    pyRound (if (if c < 40 then (40:ℚ) else c) > 95 then (95:ℚ)
             else if c < 40 then (40:ℚ) else c) ≤ 95 := by
  constructor
  · apply le_pyRound_of_le
    push_cast
    split_ifs <;> linarith
  · apply pyRound_le_of_le
    push_cast
    split_ifs <;> linarith

lemma pyRound_clamp_le_70 (c : ℚ) (h : c ≤ 70) :
    pyRound (if (if c < 40 then (40:ℚ) else c) > 95 then (95:ℚ)
             else if c < 40 then (40:ℚ) else c) ≤ 70 := by
  apply pyRound_le_of_le
  push_cast
  split_ifs <;> linarith

/-- C2: for every triple of field strings and every description,
`compute_confidence` returns an integer `n` with `40 ≤ n ≤ 95`: never below
the floor 40 and never above the ceiling 95 (integrality is the return type). -/
theorem compute_confidence_mem_Icc (it sv sys d : String) :
    40 ≤ compute_confidence it sv sys d ∧ compute_confidence it sv sys d ≤ 95 := by
  simp only [compute_confidence]
  exact pyRound_clamp_mem _

/-- C5: whenever `issue_type` and `affected_system` are non-empty and equal
case-insensitively, the computed confidence never exceeds 70, whatever the
severity and description are. -/
theorem compute_confidence_redundancy_cap (it sv sys d : String)
    (h1 : it ≠ "") (h2 : sys ≠ "") (h3 : strLower it = strLower sys) :
    compute_confidence it sv sys d ≤ 70 := by
  have hc : it ≠ "" ∧ sys ≠ "" ∧ strLower it = strLower sys := ⟨h1, h2, h3⟩
  simp only [compute_confidence]
  rw [if_pos hc]
  exact pyRound_clamp_le_70 _ (min_le_right _ _)

theorem compute_confidence_redundancy_cap_witness :
    compute_confidence "DB" "high" "db" "db is down" ≤ 70 :=
  compute_confidence_redundancy_cap "DB" "high" "db" "db is down"
    (by decide) (by decide) (by decide)

/-- C4: `field_score` returns exactly 0.3 when the field value is empty or
equals `unknown` case-insensitively; otherwise exactly 1.0 when the lowered
value occurs in the lowered source text bounded by word boundaries, and
exactly 0.7 in every remaining case. -/
theorem field_score_trichotomy (fv src : String) :
    ((fv = "" ∨ strLower fv = "unknown") → field_score fv src = 3/10) ∧
    (¬(fv = "" ∨ strLower fv = "unknown") →
      (OccursWB (strLower fv).data (strLower src).data → field_score fv src = 1) ∧
      (¬ OccursWB (strLower fv).data (strLower src).data → field_score fv src = 7/10)) := by
  refine ⟨fun h => field_score_low fv src h, fun h => ⟨fun ho => ?_, fun hno => ?_⟩⟩
  · exact field_score_hit h ((wbSearch_iff _ _).mpr ho)
  · have hw : wbSearch (strLower fv).data (strLower src).data = false := by
      cases hb : wbSearch (strLower fv).data (strLower src).data
      · rfl
      · exact absurd ((wbSearch_iff _ _).mp hb) hno
    exact field_score_miss h hw

theorem field_score_trichotomy_witness :
    field_score "unknown" "abc" = 3/10 ∧ field_score "crash" "a crash here" = 1 ∧
    field_score "cat" "dog" = 7/10 := by
  refine ⟨(field_score_trichotomy "unknown" "abc").1 (Or.inr (by decide)), ?_, ?_⟩
  · exact ((field_score_trichotomy "crash" "a crash here").2 (by decide)).1
      ((wbSearch_iff _ _).mp (by decide))
  · exact ((field_score_trichotomy "cat" "dog").2 (by decide)).2
      (fun h => absurd ((wbSearch_iff _ _).mpr h) (by decide))

/-- C1 fails on the code: the code weighs each field score by `0.33`, not by
one third. At `issue_type = "a"`, `severity = "b"`, `affected_system = "c"`,
`description = ""` each field scores 0.7, the code computes
`round(2.1 * 0.33 * 100) = round(69.3) = 69`, while the reference value from
the spec's formula `(s_issue + s_sev + s_sys) / 3 * 100` is `round(70) = 70`. -/
theorem compute_confidence_weights_counterexample :
    compute_confidence "a" "b" "c" "" = 69 ∧
    compute_confidence_specref "a" "b" "c" "" = 70 := by
  have hs : ∀ fv : String, fv = "a" ∨ fv = "b" ∨ fv = "c" → field_score fv "" = 7/10 := by
    rintro fv (rfl | rfl | rfl)
    · exact field_score_miss (by decide) (by decide)
    · exact field_score_miss (by decide) (by decide)
    · exact field_score_miss (by decide) (by decide)
  have ha := hs "a" (Or.inl rfl)
  have hb := hs "b" (Or.inr (Or.inl rfl))
  have hc := hs "c" (Or.inr (Or.inr rfl))
  have hcap : ¬(("a" : String) ≠ "" ∧ ("c" : String) ≠ "" ∧ strLower "a" = strLower "c") := by
    decide
  constructor
  · simp only [compute_confidence, ha, hb, hc]
    rw [if_neg hcap]
    have h1 : ((7:ℚ)/10 * (33/100) + 7/10 * (33/100) + 7/10 * (33/100)) * 100 = 693/10 := by
      norm_num
    rw [h1, if_neg (by norm_num : ¬((693:ℚ)/10 < 40)), if_neg (by norm_num : ¬((693:ℚ)/10 > 95))]
    exact pyRound_eq_down (by norm_num) (by norm_num)
  · simp only [compute_confidence_specref, ha, hb, hc]
    rw [if_neg hcap]
    have h1 : ((7:ℚ)/10 + 7/10 + 7/10) / 3 * 100 = 70 := by norm_num
    rw [h1, if_neg (by norm_num : ¬((70:ℚ) < 40)), if_neg (by norm_num : ¬((70:ℚ) > 95))]
    exact pyRound_eq_down (by norm_num) (by norm_num)

/-- C1 amended: `compute_confidence` scores the three fields against the
description, combines them with the code's equal weights of `0.33` each into
`raw = (s_issue + s_sev + s_sys) * 0.33 * 100`, applies the redundancy cap and
the `[40, 95]` clamp, and rounds; an all-unknown triple yields raw 29.7,
clamped to 40. -/
theorem compute_confidence_amended :
    (∀ it sv sys d : String,
      compute_confidence it sv sys d =
        pyRound
          (let raw := (field_score it d + field_score sv d + field_score sys d) * (33/100) * 100
           let capped := if it ≠ "" ∧ sys ≠ "" ∧ strLower it = strLower sys
                         then min raw 70 else raw
           let fl := if capped < 40 then 40 else capped
           if fl > 95 then 95 else fl)) ∧
    (∀ d : String, compute_confidence "unknown" "unknown" "unknown" d = 40) := by
  constructor
  · intro it sv sys d
    simp only [compute_confidence]
    have h : (field_score it d * ((33:ℚ)/100) + field_score sv d * (33/100) +
        field_score sys d * (33/100)) * 100 =
        (field_score it d + field_score sv d + field_score sys d) * (33/100) * 100 := by
      ring
    rw [h]
  · exact compute_confidence_all_unknown

/-! Data model: extraction results as the external capability delivers them,
the analysis stored on a ticket, tickets, and audit-log entries. -/

/-- The structured extraction the external service returns for a description
(after the call site has already substituted all-unknown on parse failure). -/
structure Extracted where
  issue_type : String
  severity : String
  affected_system : String
deriving DecidableEq

/-- The `ai_analysis` value built by `analyze_ticket`: the extracted fields
plus the computed confidence and the proposed fix. -/
structure Analysis where
  issue_type : String
  severity : String
  affected_system : String
  confidence : ℤ
  propose_fix : String
deriving DecidableEq

/-- A ticket of the store. Statuses are the literal strings the code uses:
`"open"`, `"need review"`, `"closed"`. -/
structure Ticket where
  ticket_no : String
  description : String
  status : String
  ai_analysis : Option Analysis := none
  human_resolution : Option String := none
deriving DecidableEq

/-- One entry of the resolution-memory audit log (`memory.json`). -/
structure MemEntry where
  ticket_no : String
  resolution : String
  approved_by_human : Bool
deriving DecidableEq

/-- Embedding of `analyze_ticket` from `app.py`, with the external collaborators passed in:
`extract` stands for the ollama extraction round-trip (including the
all-unknown substitution on parse failure) and `genFix` for
`generate_proposed_fix`. The confidence is computed by the core and the fix is
generated only when the confidence reaches 85. -/
def analyze_ticket (extract : String → Extracted) (genFix : String → String)
    (description : String) : Analysis :=
  let e := extract description
  let conf := compute_confidence e.issue_type e.severity e.affected_system description
  { issue_type := e.issue_type
    severity := e.severity
    affected_system := e.affected_system
    confidence := conf
    propose_fix := if conf ≥ 85 then genFix description else "none" }

/-- The per-ticket body of the `auto_process_open_tickets` loop: an open
ticket gets analyzed and moved to `closed` or `need review` by the threshold;
any other ticket is left untouched. -/
def process_ticket (extract : String → Extracted) (genFix : String → String)
    (t : Ticket) : Ticket :=
  if t.status = "open" then
    let analysis := analyze_ticket extract genFix t.description
    { t with ai_analysis := some analysis
             status := if analysis.confidence ≥ 85 then "closed" else "need review" }
  else t

/-- Embedding of `auto_process_open_tickets` from `app.py` on an explicit collection:
returns the updated collection and the `changed` flag that decides whether
`save_tickets` is called. -/
def auto_process_open_tickets (extract : String → Extracted) (genFix : String → String) :
    List Ticket → List Ticket × Bool
  | [] => ([], false)
  | t :: rest =>
    let p := auto_process_open_tickets extract genFix rest
    if t.status = "open" then (process_ticket extract genFix t :: p.1, true)
    else (t :: p.1, p.2)

lemma analyze_ticket_confidence (e : String → Extracted) (g : String → String) (d : String) :
    (analyze_ticket e g d).confidence =
      compute_confidence (e d).issue_type (e d).severity (e d).affected_system d := rfl

lemma analyze_ticket_propose_fix (e : String → Extracted) (g : String → String) (d : String) :
    (analyze_ticket e g d).propose_fix =
      if compute_confidence (e d).issue_type (e d).severity (e d).affected_system d ≥ 85
      then g d else "none" := rfl

lemma process_ticket_open (e : String → Extracted) (g : String → String) (t : Ticket)
    (h : t.status = "open") :
    process_ticket e g t =
      { t with ai_analysis := some (analyze_ticket e g t.description)
               status := if (analyze_ticket e g t.description).confidence ≥ 85
                         then "closed" else "need review" } := by
  simp only [process_ticket, if_pos h]

lemma process_ticket_not_open (e : String → Extracted) (g : String → String) (t : Ticket)
    (h : t.status ≠ "open") : process_ticket e g t = t := by
  rw [process_ticket, if_neg h]

lemma analyze_ticket_indep (e : String → Extracted) (g g' : String → String) (d : String)
    (h : compute_confidence (e d).issue_type (e d).severity (e d).affected_system d < 85) :
    analyze_ticket e g' d = analyze_ticket e g d := by
  have hn : ¬(compute_confidence (e d).issue_type (e d).severity (e d).affected_system d ≥ 85) :=
    not_le.mpr h
  simp only [analyze_ticket, if_neg hn]

/-- C3: on a ticket the automatic pass processes (an `open` ticket), if the
computed confidence reaches the threshold 85 the ticket is closed and the fix
generator's output is stored as `propose_fix`; below 85 the ticket moves to
`need review`, `propose_fix` is the sentinel `"none"`, and the result does not
depend on the fix generator at all (it is never invoked). -/
theorem auto_pass_resolution_policy (e : String → Extracted) (g g' : String → String)
    (t : Ticket) (h : t.status = "open") :
    ((analyze_ticket e g t.description).confidence ≥ 85 →
      (process_ticket e g t).status = "closed" ∧
      (process_ticket e g t).ai_analysis = some (analyze_ticket e g t.description) ∧
      (analyze_ticket e g t.description).propose_fix = g t.description) ∧
    ((analyze_ticket e g t.description).confidence < 85 →
      (process_ticket e g t).status = "need review" ∧
      (process_ticket e g t).ai_analysis = some (analyze_ticket e g t.description) ∧
      (analyze_ticket e g t.description).propose_fix = "none" ∧
      analyze_ticket e g' t.description = analyze_ticket e g t.description) := by
  rw [process_ticket_open e g t h]
  constructor
  · intro hc
    refine ⟨?_, rfl, ?_⟩
    · show (if (analyze_ticket e g t.description).confidence ≥ 85
            then "closed" else "need review") = "closed"
      rw [if_pos hc]
    · rw [analyze_ticket_confidence] at hc
      rw [analyze_ticket_propose_fix, if_pos hc]
  · intro hc
    have hc' : compute_confidence (e t.description).issue_type (e t.description).severity
        (e t.description).affected_system t.description < 85 := by
      rw [← analyze_ticket_confidence e g t.description]; exact hc
    refine ⟨?_, rfl, ?_, analyze_ticket_indep e g g' t.description hc'⟩
    · show (if (analyze_ticket e g t.description).confidence ≥ 85
            then "closed" else "need review") = "need review"
      rw [if_neg (not_le.mpr hc)]
    · rw [analyze_ticket_propose_fix, if_neg (not_le.mpr hc')]

theorem auto_pass_resolution_policy_witness :
    (process_ticket (fun _ => ⟨"unknown", "unknown", "unknown"⟩) (fun _ => "fix it")
      ⟨"TICKET-0001", "printer jam", "open", none, none⟩).status = "need review" ∧
    (analyze_ticket (fun _ => ⟨"unknown", "unknown", "unknown"⟩) (fun _ => "fix it")
      "printer jam").propose_fix = "none" := by
  have hlt : (analyze_ticket (fun _ => ⟨"unknown", "unknown", "unknown"⟩) (fun _ => "fix it")
      "printer jam").confidence < 85 := by
    rw [analyze_ticket_confidence]
    rw [show compute_confidence "unknown" "unknown" "unknown" "printer jam" = 40 from
      compute_confidence_all_unknown "printer jam"]
    omega
  have h := (auto_pass_resolution_policy (fun _ => ⟨"unknown", "unknown", "unknown"⟩)
    (fun _ => "fix it") (fun _ => "fix it")
    ⟨"TICKET-0001", "printer jam", "open", none, none⟩ rfl).2 hlt
  exact ⟨h.1, h.2.2.1⟩

lemma auto_eq_map_any (e : String → Extracted) (g : String → String) (ts : List Ticket) :
    auto_process_open_tickets e g ts =
      (ts.map (fun t => if t.status = "open" then process_ticket e g t else t),
       ts.any (fun t => t.status == "open")) := by
  induction ts with
  | nil => rfl
  | cons t rest ih =>
    simp only [auto_process_open_tickets, ih, List.map_cons, List.any_cons]
    by_cases h : t.status = "open" <;> simp [h]

lemma process_ticket_status_closes (e : String → Extracted) (g : String → String) (t : Ticket)
    (h : t.status = "open") : (process_ticket e g t).status ≠ "open" := by
  rw [process_ticket_open e g t h]
  show (if (analyze_ticket e g t.description).confidence ≥ 85
        then "closed" else "need review") ≠ "open"
  split_ifs <;> decide

lemma map_fix {α : Type} (f : α → α) :
    ∀ (l : List α), (∀ a ∈ l, f a = a) → l.map f = l
  | [], _ => rfl
  | a :: l, h => by
    rw [List.map_cons, h a (by simp), map_fix f l (fun b hb => h b (by simp [hb]))]

lemma auto_output_not_open (e : String → Extracted) (g : String → String) (ts : List Ticket) :
    ∀ u ∈ (auto_process_open_tickets e g ts).1, u.status ≠ "open" := by
  rw [auto_eq_map_any]
  intro u hu
  rcases List.mem_map.mp hu with ⟨t, _, rfl⟩
  by_cases h : t.status = "open"
  · rw [if_pos h]; exact process_ticket_status_closes e g t h
  · rw [if_neg h]; exact h

/-- C6: an automatic pass leaves every `closed` or `need review` ticket
entirely unchanged (only `open` tickets are touched), and it is idempotent at
the collection level: a second pass — even with different external
collaborators — returns the same collection with the `changed` flag false, so
nothing is re-scored and nothing is saved. -/
theorem auto_pass_only_open_and_idempotent (e : String → Extracted) (g : String → String)
    (ts : List Ticket) :
    (∀ t ∈ ts, t.status = "closed" ∨ t.status = "need review" →
      process_ticket e g t = t) ∧
    (∀ (e' : String → Extracted) (g' : String → String),
      auto_process_open_tickets e' g' (auto_process_open_tickets e g ts).1 =
        ((auto_process_open_tickets e g ts).1, false)) := by
  constructor
  · intro t _ h
    refine process_ticket_not_open e g t ?_
    rcases h with h | h <;> rw [h] <;> decide
  · intro e' g'
    have hall := auto_output_not_open e g ts
    rw [auto_eq_map_any e' g']
    refine Prod.ext ?_ ?_
    · show List.map _ _ = _
      exact map_fix _ _ (fun u hu => by rw [if_neg (hall u hu)])
    · show List.any _ _ = false
      rw [List.any_eq_false]
      intro u hu
      simp [beq_iff_eq, hall u hu]

theorem auto_pass_only_open_and_idempotent_witness :
    process_ticket (fun _ => ⟨"unknown", "unknown", "unknown"⟩) (fun _ => "fix")
      ⟨"TICKET-0001", "done already", "closed", none, none⟩ =
      ⟨"TICKET-0001", "done already", "closed", none, none⟩ ∧
    (auto_process_open_tickets (fun _ => ⟨"unknown", "unknown", "unknown"⟩) (fun _ => "fix")
      (auto_process_open_tickets (fun _ => ⟨"unknown", "unknown", "unknown"⟩) (fun _ => "fix")
        [⟨"TICKET-0001", "done already", "closed", none, none⟩,
         ⟨"TICKET-0002", "broken printer", "open", none, none⟩]).1 =
      ((auto_process_open_tickets (fun _ => ⟨"unknown", "unknown", "unknown"⟩) (fun _ => "fix")
        [⟨"TICKET-0001", "done already", "closed", none, none⟩,
         ⟨"TICKET-0002", "broken printer", "open", none, none⟩]).1, false)) := by
  have h := auto_pass_only_open_and_idempotent (fun _ => ⟨"unknown", "unknown", "unknown"⟩)
    (fun _ => "fix")
    [⟨"TICKET-0001", "done already", "closed", none, none⟩,
     ⟨"TICKET-0002", "broken printer", "open", none, none⟩]
  exact ⟨h.1 _ (by simp) (Or.inl rfl), h.2 _ _⟩

/-! Manual closure (the "Close Ticket Manually" handler) and the search
filter. -/

/-- The outcome reported to the user by the manual-closure handler. -/
inductive CloseResult where
  | success
  | notFound
  | wrongState
  | emptyTicketNo
  | emptyNotes
deriving DecidableEq

/-- The `for t in tickets` loop of the manual-closure handler: find the first
ticket whose stored number, stripped and uppercased, equals the key; report
`some false` (state-precondition failure, loop broken, nothing written) when
it is not in `need review`, otherwise close it in place and report
`some true`; `none` when no ticket matches. -/
def closeLoop (key notes : String) : List Ticket → List Ticket × Option Bool
  | [] => ([], none)
  | t :: rest =>
    if strUpper (strTrim t.ticket_no) = key then
      if t.status ≠ "need review" then (t :: rest, some false)
      else ({ t with status := "closed", human_resolution := some notes } :: rest, some true)
    else
      let p := closeLoop key notes rest
      (t :: p.1, p.2)

/-- The manual-closure handler behind the "Close Ticket Manually" button:
validates the two inputs, walks the store for the entered number
(case-insensitively, surrounding whitespace stripped), and on success saves
the updated store and appends one audit entry that records the *entered*
string as its `ticket_no`. -/
def close_ticket_manually (tickets : List Ticket) (memory : List MemEntry)
    (ticket_to_close resolution_notes : String) :
    List Ticket × List MemEntry × CloseResult :=
  if strTrim ticket_to_close = "" then (tickets, memory, .emptyTicketNo)
  else if strTrim resolution_notes = "" then (tickets, memory, .emptyNotes)
  else
    match closeLoop (strUpper (strTrim ticket_to_close)) resolution_notes tickets with
    | (ts, some true) =>
        (ts, memory ++ [⟨ticket_to_close, resolution_notes, true⟩], .success)
    | (ts, some false) => (ts, memory, .wrongState)
    | (ts, none) => (ts, memory, .notFound)

lemma closeLoop_not_found (key notes : String) (ts : List Ticket)
    (h : ∀ u ∈ ts, strUpper (strTrim u.ticket_no) ≠ key) :
    closeLoop key notes ts = (ts, none) := by
  induction ts with
  | nil => rfl
  | cons t rest ih =>
    have ht := h t (by simp)
    have hr := ih (fun u hu => h u (by simp [hu]))
    simp only [closeLoop, if_neg ht, hr]

lemma closeLoop_found_nr (key notes : String) (pre post : List Ticket) (t : Ticket)
    (hpre : ∀ u ∈ pre, strUpper (strTrim u.ticket_no) ≠ key)
    (ht : strUpper (strTrim t.ticket_no) = key)
    (hs : t.status = "need review") :
    closeLoop key notes (pre ++ t :: post) =
      (pre ++ { t with status := "closed", human_resolution := some notes } :: post,
       some true) := by
  induction pre with
  | nil =>
    simp only [List.nil_append, closeLoop, if_pos ht, if_neg (not_not_intro hs)]
  | cons u us ih =>
    have hu := hpre u (by simp)
    have ih' := ih (fun v hv => hpre v (by simp [hv]))
    simp only [List.cons_append, closeLoop, if_neg hu, List.append_eq, ih']

lemma closeLoop_found_wrong (key notes : String) (pre post : List Ticket) (t : Ticket)
    (hpre : ∀ u ∈ pre, strUpper (strTrim u.ticket_no) ≠ key)
    (ht : strUpper (strTrim t.ticket_no) = key)
    (hs : t.status ≠ "need review") :
    closeLoop key notes (pre ++ t :: post) = (pre ++ t :: post, some false) := by
  induction pre with
  | nil =>
    simp only [List.nil_append, closeLoop, if_pos ht, if_pos hs]
  | cons u us ih =>
    have hu := hpre u (by simp)
    have ih' := ih (fun v hv => hpre v (by simp [hv]))
    simp only [List.cons_append, closeLoop, if_neg hu, List.append_eq, ih']

/-- C7: manual closure of a `need review` ticket found in the store under the
entered number (here: the stored number itself), with non-empty inputs, closes
exactly that ticket, records the notes as `human_resolution`, and appends
exactly one audit entry to the resolution memory. -/
theorem manual_closure_success (pre post : List Ticket) (t : Ticket) (memory : List MemEntry)
    (notes : String)
    (hpre : ∀ u ∈ pre, strUpper (strTrim u.ticket_no) ≠ strUpper (strTrim t.ticket_no))
    (hstatus : t.status = "need review")
    (hno : strTrim t.ticket_no ≠ "")
    (hnotes : strTrim notes ≠ "") :
    close_ticket_manually (pre ++ t :: post) memory t.ticket_no notes =
      (pre ++ { t with status := "closed", human_resolution := some notes } :: post,
       memory ++ [⟨t.ticket_no, notes, true⟩], .success) := by
  rw [close_ticket_manually, if_neg hno, if_neg hnotes,
      closeLoop_found_nr _ notes pre post t hpre rfl hstatus]

theorem manual_closure_success_witness :
    close_ticket_manually
      [⟨"TICKET-0001", "a", "closed", none, none⟩,
       ⟨"TICKET-0002", "b", "need review", none, none⟩]
      [] "TICKET-0002" "restarted service" =
      ([⟨"TICKET-0001", "a", "closed", none, none⟩,
        ⟨"TICKET-0002", "b", "closed", none, some "restarted service"⟩],
       [⟨"TICKET-0002", "restarted service", true⟩], .success) :=
  manual_closure_success [⟨"TICKET-0001", "a", "closed", none, none⟩] []
    ⟨"TICKET-0002", "b", "need review", none, none⟩ [] "restarted service"
    (by decide) rfl (by decide) (by decide)

/-- C8: a manual-closure attempt whose target is absent, or present but
`open` or `closed`, leaves the ticket store and the audit log completely
unmodified and reports a lookup failure resp. a state-precondition failure. -/
theorem manual_closure_failure (tickets : List Ticket) (memory : List MemEntry)
    (entered notes : String)
    (hno : strTrim entered ≠ "") (hnotes : strTrim notes ≠ "") :
    ((∀ u ∈ tickets, strUpper (strTrim u.ticket_no) ≠ strUpper (strTrim entered)) →
      close_ticket_manually tickets memory entered notes = (tickets, memory, .notFound)) ∧
    (∀ pre t post, tickets = pre ++ t :: post →
      (∀ u ∈ pre, strUpper (strTrim u.ticket_no) ≠ strUpper (strTrim entered)) →
      strUpper (strTrim t.ticket_no) = strUpper (strTrim entered) →
      t.status = "open" ∨ t.status = "closed" →
      close_ticket_manually tickets memory entered notes = (tickets, memory, .wrongState)) := by
  constructor
  · intro h
    rw [close_ticket_manually, if_neg hno, if_neg hnotes, closeLoop_not_found _ _ _ h]
  · rintro pre t post rfl hpre hkey hstat
    have hs : t.status ≠ "need review" := by
      rcases hstat with h | h <;> rw [h] <;> decide
    rw [close_ticket_manually, if_neg hno, if_neg hnotes,
        closeLoop_found_wrong _ _ pre post t hpre hkey hs]

theorem manual_closure_failure_witness :
    close_ticket_manually [⟨"TICKET-0001", "x", "open", none, none⟩] [] "TICKET-0009" "n" =
      ([⟨"TICKET-0001", "x", "open", none, none⟩], [], .notFound) ∧
    close_ticket_manually [⟨"TICKET-0001", "x", "open", none, none⟩] [] "TICKET-0001" "n" =
      ([⟨"TICKET-0001", "x", "open", none, none⟩], [], .wrongState) :=
  ⟨(manual_closure_failure [⟨"TICKET-0001", "x", "open", none, none⟩] [] "TICKET-0009" "n"
      (by decide) (by decide)).1 (by decide),
   (manual_closure_failure [⟨"TICKET-0001", "x", "open", none, none⟩] [] "TICKET-0001" "n"
      (by decide) (by decide)).2 [] ⟨"TICKET-0001", "x", "open", none, none⟩ [] rfl
      (by decide) (by decide) (Or.inl rfl)⟩

/-- C10: the manual-closure lookup compares the stored number and the entered
number case-insensitively after stripping surrounding whitespace, so an
entered number differing from the stored one only in case or surrounding
whitespace still closes the ticket — and the appended audit entry records the
entered string, not the stored canonical number. -/
theorem manual_closure_entered_key (pre post : List Ticket) (t : Ticket)
    (memory : List MemEntry) (entered notes : String)
    (hkey : strUpper (strTrim entered) = strUpper (strTrim t.ticket_no))
    (hpre : ∀ u ∈ pre, strUpper (strTrim u.ticket_no) ≠ strUpper (strTrim entered))
    (hstatus : t.status = "need review")
    (hno : strTrim entered ≠ "") (hnotes : strTrim notes ≠ "") :
    close_ticket_manually (pre ++ t :: post) memory entered notes =
      (pre ++ { t with status := "closed", human_resolution := some notes } :: post,
       memory ++ [⟨entered, notes, true⟩], .success) := by
  rw [close_ticket_manually, if_neg hno, if_neg hnotes,
      closeLoop_found_nr _ notes pre post t hpre hkey.symm hstatus]

theorem manual_closure_entered_key_witness :
    close_ticket_manually [⟨"TICKET-0002", "b", "need review", none, none⟩] []
      "  ticket-0002 " "done" =
      ([⟨"TICKET-0002", "b", "closed", none, some "done"⟩],
       [⟨"  ticket-0002 ", "done", true⟩], .success) :=
  manual_closure_entered_key [] [] ⟨"TICKET-0002", "b", "need review", none, none⟩ []
    "  ticket-0002 " "done" (by decide) (by decide) rfl (by decide) (by decide)

/-- Embedding of `filter_tickets` from `app.py`. The loop skips a ticket when a non-none
status facet differs from the ticket's status, or when a non-none severity
facet differs from the severity stored in `ai_analysis` (a missing analysis
never matches); this is that condition, de-Morganed into inclusion form. -/
def filter_tickets (tickets : List Ticket) (status severity : String) : List Ticket :=
  tickets.filter fun t =>
    decide ((status = "none" ∨ t.status = status) ∧
      (severity = "none" ∨ t.ai_analysis.map Analysis.severity = some severity))

/-- Specification-side inclusion condition of the search filter: every
non-`none` facet matches, the severity being read from the extraction result
and a missing extraction result never matching. -/
def FacetMatch (status severity : String) (t : Ticket) : Prop :=
  (status = "none" ∨ t.status = status) ∧
  (severity = "none" ∨ ∃ a, t.ai_analysis = some a ∧ a.severity = severity)

/-- C9: the filter returns an order-preserving subsequence of its input whose
members are exactly the input tickets matching every non-`none` facet, and
with both facets `none` it is the identity. -/
theorem filter_tickets_spec (ts : List Ticket) (status severity : String) :
    List.Sublist (filter_tickets ts status severity) ts ∧
    (∀ t, t ∈ filter_tickets ts status severity ↔ t ∈ ts ∧ FacetMatch status severity t) ∧
    filter_tickets ts "none" "none" = ts := by
  refine ⟨List.filter_sublist _, fun t => ?_, ?_⟩
  · rw [filter_tickets, List.mem_filter, decide_eq_true_iff]
    unfold FacetMatch
    rw [Option.map_eq_some']
  · rw [filter_tickets]
    rw [List.filter_eq_self]
    intro t _
    exact decide_eq_true ⟨Or.inl rfl, Or.inl rfl⟩
